import Mathlib

/-!
Shallow embedding of the distributed chat node (`src/nodes/node.py`):
peer discovery over multicast HELLO datagrams, ring neighbor maintenance,
Chang-Roberts (LCR) leader election, heartbeat propagation and leader-gated
client admission and broadcast.

Python wall-clock timestamps and ports are modelled as `Int`; node ids are
`Int` (Python `int`).  The peer table `known` (a Python dict keyed by id,
insertion ordered, unique keys) is modelled as an association list with
dict-style assignment.  Fallible Python code (an uncaught exception such as
`ValueError` from `int(...)` or `IndexError` from `parts[1]`) is modelled
with `Option`: a `none` result means the handler raised.
-/

namespace DistNode

/-- One row of `self.known`: Python tuple `(host, ring_port, client_port, last_seen)`.
Ports are `Option` because `__init__` stores `None` before the TCP servers bind. -/
structure Entry where
  host : String
  ringPort : Option Int
  clientPort : Option Int
  lastSeen : Int
deriving Repr, DecidableEq

/-- The peer table `self.known`, a dict `id -> Entry`. -/
abbrev Known := List (Int × Entry)

/-- Python dict assignment `m[k] = v`: replace in place if the key exists, else append. -/
def dictSet : Known → Int → Entry → Known
  | [], k, v => [(k, v)]
  | p :: rest, k, v => if p.1 = k then (k, v) :: rest else p :: dictSet rest k v

/-- Python dict lookup `m[k]` (as an `Option`). -/
def dictGet? : Known → Int → Option Entry
  | [], _ => none
  | p :: rest, k => if p.1 = k then some p.2 else dictGet? rest k

/-- A ring control message (the three newline-terminated commands of the wire grammar). -/
inductive RingMsg where
  | election (eid : Int)
  | leader (lid : Int)
  | heartbeat (lid : Int)
deriving Repr, DecidableEq

/-- The mutable fields of class `Node`. `clients` holds abstract connection handles. -/
structure NodeState where
  id : Int
  localIp : String
  known : Known
  ringPort : Option Int
  clientPort : Option Int
  neighbor : Option (Int × String × Int)
  left : Option (Int × String × Int)
  leaderId : Option Int
  lastHeartbeat : Int
  inElection : Bool
  lastElectionStart : Int
  clients : List Int
deriving Repr, DecidableEq

/-- Python whitespace test (space, tab, LF, VT, FF, CR). -/
def isWs (c : Char) : Bool :=
  c.toNat = 32 || c.toNat = 9 || c.toNat = 10 || c.toNat = 11 || c.toNat = 12 || c.toNat = 13

/-- Python `str.strip()`. -/
def pyStrip (s : String) : String :=
  String.mk (((s.data.dropWhile (fun c => isWs c)).reverse.dropWhile (fun c => isWs c)).reverse)

/-- Helper for `pySplit`: scan the characters, accumulating the current token reversed. -/
def splitWsAux : List Char → List Char → List String
  | [], acc => if acc.isEmpty then [] else [String.mk acc.reverse]
  | c :: cs, acc =>
    if isWs c then
      if acc.isEmpty then splitWsAux cs []
      else String.mk acc.reverse :: splitWsAux cs []
    else splitWsAux cs (c :: acc)

/-- Python `str.split()` with no argument: split on whitespace runs, dropping empties. -/
def pySplit (s : String) : List String := splitWsAux s.data []

/-- Decimal digit value of a character, if it is one. -/
def digitVal? (c : Char) : Option Nat :=
  if 48 ≤ c.toNat ∧ c.toNat ≤ 57 then some (c.toNat - 48) else none

/-- Value of a non-empty all-digit run, accumulator style. -/
def natOfDigits? : List Char → Nat → Option Nat
  | [], acc => some acc
  | c :: cs, acc =>
    match digitVal? c with
    | none => none
    | some d => natOfDigits? cs (acc * 10 + d)

/-- Python `int(s)` on the decimal strings this system exchanges: optional surrounding
whitespace, an optional sign, then a non-empty digit run; `none` models a raised
`ValueError`. -/
def pyInt? (s : String) : Option Int :=
  match (pyStrip s).data with
  | [] => none
  | c :: rest =>
    if c.toNat = 45 then
      match natOfDigits? rest 0 with
      | some n => if rest.isEmpty then none else some (-(n : Int))
      | none => none
    else if c.toNat = 43 then
      match natOfDigits? rest 0 with
      | some n => if rest.isEmpty then none else some ((n : Int))
      | none => none
    else
      match natOfDigits? (c :: rest) 0 with
      | some n => some ((n : Int))
      | none => none

/-- `Node._on_election_msg`: the LCR rules. -/
def onElectionMsg (st : NodeState) (eid : Int) : NodeState × List RingMsg :=
  if eid = st.id then
    ({ st with leaderId := some st.id, inElection := false }, [RingMsg.leader st.id])
  else if eid > st.id then
    (st, [RingMsg.election eid])
  else
    (st, [RingMsg.election st.id])

/-- `Node._on_leader_msg`. -/
def onLeaderMsg (st : NodeState) (now : Int) (lid : Int) : NodeState × List RingMsg :=
  ({ st with leaderId := some lid, inElection := false, lastHeartbeat := now },
   if lid ≠ st.id then [RingMsg.leader lid] else [])

/-- `Node._on_heartbeat`. -/
def onHeartbeat (st : NodeState) (now : Int) (lid : Int) : NodeState × List RingMsg :=
  ({ st with leaderId := some lid, lastHeartbeat := now },
   if lid ≠ st.id then [RingMsg.heartbeat lid] else [])

/-- Dispatch of one line in `Node._handle_ring_conn`: strip, skip blanks, split,
branch on the keyword `parts[0]`; `int(parts[1])` (and the `parts[1]` access itself)
may raise, which kills the connection — modelled by `none`. Unknown keywords fall
through silently. -/
def handleRingLine (st : NodeState) (now : Int) (line : String) :
    Option (NodeState × List RingMsg) :=
  let l := pyStrip line
  if l.data.isEmpty then some (st, [])
  else
    match pySplit l with
    | [] => none
    | cmd :: args =>
      if cmd = "ELECTION" then
        match args.head?.bind pyInt? with
        | none => none
        | some eid => some (onElectionMsg st eid)
      else if cmd = "LEADER" then
        match args.head?.bind pyInt? with
        | none => none
        | some lid => some (onLeaderMsg st now lid)
      else if cmd = "HEARTBEAT" then
        match args.head?.bind pyInt? with
        | none => none
        | some lid => some (onHeartbeat st now lid)
      else some (st, [])

/-- Processing the successive lines of one ring connection (stops when a line raises). -/
def handleRingLines (st : NodeState) (now : Int) : List String → Option (NodeState × List RingMsg)
  | [] => some (st, [])
  | l :: ls =>
    match handleRingLine st now l with
    | none => none
    | some (st1, out) =>
      match handleRingLines st1 now ls with
      | none => none
      | some (st2, out2) => some (st2, out ++ out2)

/-- The well-formedness guard of `Node._discovery_listener`: `len(s) >= 5 and s[0] == 'HELLO'`. -/
def helloShaped (data : String) : Bool :=
  let s := pySplit (pyStrip data)
  decide (5 ≤ s.length) && (s.getD 0 ("") == "HELLO")

/-- Recording one parsed HELLO: `self.known[nid] = (host, ring_p, client_p, time.time())`. -/
def ingestHello (st : NodeState) (now : Int) (nid : Int) (host : String)
    (ringp clientp : Int) : NodeState :=
  { st with known := dictSet st.known nid ⟨host, some ringp, some clientp, now⟩ }

/-- Body of the `Node._discovery_listener` loop for one datagram.  A datagram failing
the shape guard is dropped silently; a shaped one whose id or ports fail `int(...)`
raises (`none`), killing the listener thread. -/
def handleDatagram (st : NodeState) (now : Int) (data : String) : Option NodeState :=
  let s := pySplit (pyStrip data)
  if helloShaped data then
    match pyInt? (s.getD 1 ("")), pyInt? (s.getD 3 ("")), pyInt? (s.getD 4 ("")) with
    | some nid, some ringp, some clientp =>
      some (ingestHello st now nid (s.getD 2 ("")) ringp clientp)
    | _, _, _ => none
  else some st

/-- The staleness sweep of `Node._ring_maintainer`, exactly as written:
`torem = [nid for nid, v in ... if now - v[2] > 10 and nid != self.id]` followed by
deletion.  Note the code reads `v[2]` — the **client_port** field of the tuple
`(host, ring_port, client_port, last_seen)` — not `v[3]`.  `now - None` raises
`TypeError`, modelled by `none`. -/
def ringEvict (now : Int) (selfId : Int) : Known → Option Known
  | [] => some []
  | p :: rest =>
    match p.2.clientPort with
    | none => none
    | some cp =>
      match ringEvict now selfId rest with
      | none => none
      | some r => some (if now - cp > 10 ∧ p.1 ≠ selfId then r else p :: r)

/-- Python `(i - 1) % n` on ints (Python `%` agrees with Lean's `Int` `%`, `Int.emod`,
for a positive modulus). -/
def leftIdx (i n : Nat) : Nat := ((((i : Int) - 1) % (n : Int))).toNat

/-- Python `ids.index(x)`: position of the first occurrence. -/
def pyIndex (x : Int) : List Int → Nat
  | [] => 0
  | y :: ys => if y = x then 0 else pyIndex x ys + 1

/-- `ids = sorted(self.known.keys())`. -/
def sortedIds (m : Known) : List Int :=
  List.insertionSort (fun a b => a ≤ b) (m.map Prod.fst)

/-- The neighbor-id computation of `Node._ring_maintainer`: if `self.id in ids`,
`right = ids[(i + 1) % len(ids)]` and `left = ids[(i - 1) % len(ids)]`. `none`
when the id list is empty or does not contain self (the code then skips the update). -/
def computeNeighborIds (selfId : Int) (ids : List Int) : Option (Int × Int) :=
  if selfId ∈ ids then
    some (ids.getD (leftIdx (pyIndex selfId ids) ids.length) 0,
          ids.getD ((pyIndex selfId ids + 1) % ids.length) 0)
  else none

/-- `new_neighbor = (right, right_host, rp) if rp is not None else None`. -/
def neighborRecord (m : Known) (nid : Int) : Option (Int × String × Int) :=
  match dictGet? m nid with
  | none => none
  | some e =>
    match e.ringPort with
    | none => none
    | some rp => some (nid, e.host, rp)

/-- The `(left, right)` neighbor pair computed from a snapshot of the peer table. -/
def ringNeighbors (selfId : Int) (m : Known) :
    Option ((Option (Int × String × Int)) × (Option (Int × String × Int))) :=
  match computeNeighborIds selfId (sortedIds m) with
  | none => none
  | some (l, r) => some (neighborRecord m l, neighborRecord m r)

/-- One tick of `Node._ring_maintainer`: staleness sweep, neighbor recomputation,
then (on a neighbor change with no known leader, outside an election and past the
2 s cooldown) election start.  `none` models an uncaught exception in the sweep. -/
def ringMaintainerTick (st : NodeState) (now : Int) : Option (NodeState × List RingMsg) :=
  match ringEvict now st.id st.known with
  | none => none
  | some known1 =>
    let st1 := { st with known := known1 }
    match ringNeighbors st1.id st1.known with
    | none => some (st1, [])
    | some (l, r) =>
      if r = st1.neighbor ∧ l = st1.left then some (st1, [])
      else
        let st2 := { st1 with neighbor := r, left := l }
        if st2.leaderId = none ∧ st2.neighbor ≠ none ∧ st2.inElection = false ∧
            now - st2.lastElectionStart > 2 then
          some ({ st2 with inElection := true, lastElectionStart := now },
                [RingMsg.election st2.id])
        else some (st2, [])

/-- `Node._start_tcp_servers`: bind both listeners and register the actual ports
in the peer table under self. -/
def startTcpServers (st : NodeState) (rp cp : Int) (now : Int) : NodeState :=
  { st with ringPort := some rp, clientPort := some cp,
            known := dictSet st.known st.id ⟨st.localIp, some rp, some cp, now⟩ }

/-- One accept in `Node._client_accept_loop`.  Result: new state, lines sent to the
new connection, and whether the connection was kept (admitted). -/
def clientAccept (st : NodeState) (conn : Int) : NodeState × List String × Bool :=
  if st.leaderId = some st.id then
    ({ st with clients := st.clients ++ [conn] }, [("WELCOME\n")], true)
  else
    (st, [("NOT_LEADER\n")], false)

/-- Python `line.rstrip('\n')`. -/
def rstripNl (s : String) : String :=
  String.mk ((s.toList.reverse.dropWhile (fun c => c = '\n')).reverse)

/-- `Node._broadcast_to_clients` with all sends succeeding: each connected client
is sent `text + "\n"`. -/
def broadcastToClients (st : NodeState) (text : String) : List (Int × String) :=
  st.clients.map (fun c => (c, text ++ "\n"))

/-- One line of `Node._handle_client`: strip the newline and, when non-empty,
broadcast `"[<self.id>] <msg>"` to the whole client set. -/
def handleClientLine (st : NodeState) (line : String) : List (Int × String) :=
  let msg := rstripNl line
  if msg = "" then []
  else broadcastToClients st (("[") ++ toString st.id ++ ("] ") ++ msg)

/-- The Boolean invariant "the peer table contains self with the bound ports". -/
def selfRegistered (st : NodeState) : Bool :=
  st.ringPort.isSome && st.clientPort.isSome &&
    match dictGet? st.known st.id with
    | some e => e.ringPort == st.ringPort && e.clientPort == st.clientPort
    | none => false

/-- A concrete node state used to instantiate theorems: node 3 just after startup. -/
def st0 : NodeState :=
  { id := 3
    localIp := "127.0.0.1"
    known := [(3, ⟨"127.0.0.1", some 11, some 12, 0⟩)]
    ringPort := some 11
    clientPort := some 12
    neighbor := none
    left := none
    leaderId := none
    lastHeartbeat := 0
    inElection := false
    lastElectionStart := 0
    clients := [] }

/-- The state of node 1 at a tick where peer 2 was heard from at the current instant. -/
def stC1 : NodeState :=
  { st0 with
    id := 1
    known := [(1, ⟨"127.0.0.1", some 20, some 30, 995⟩),
              (2, ⟨"10.0.0.2", some 40, some 50, 1000⟩)]
    ringPort := some 20
    clientPort := some 30
    neighbor := some (1, "127.0.0.1", 20)
    left := some (1, "127.0.0.1", 20)
    leaderId := some 2 }

theorem dictGet_dictSet_self (m : Known) (k : Int) (v : Entry) :
    dictGet? (dictSet m k v) k = some v := by
  induction m with
  | nil => simp [dictSet, dictGet?]
  | cons p rest ih =>
    by_cases h : p.1 = k
    · simp [dictSet, dictGet?, h]
    · simp [dictSet, dictGet?, h, ih]

theorem dictGet_dictSet_ne (m : Known) (k k2 : Int) (v : Entry) (h : k2 ≠ k) :
    dictGet? (dictSet m k v) k2 = dictGet? m k2 := by
  have h1 : ¬ (k = k2) := fun he => h he.symm
  induction m with
  | nil => simp [dictSet, dictGet?, h1]
  | cons p rest ih =>
    by_cases hp : p.1 = k
    · have h2 : ¬ (p.1 = k2) := by rw [hp]; exact h1
      simp [dictSet, dictGet?, hp, h1, h2]
    · by_cases hq : p.1 = k2
      · simp [dictSet, dictGet?, hp, hq, h]
      · simp [dictSet, dictGet?, hp, hq, ih]

theorem ringEvict_dictGet_self (now selfId : Int) (m m2 : Known)
    (h : ringEvict now selfId m = some m2) :
    dictGet? m2 selfId = dictGet? m selfId := by
  induction m generalizing m2 with
  | nil =>
    simp [ringEvict] at h
    subst h
    rfl
  | cons p rest ih =>
    unfold ringEvict at h
    cases hcp : p.2.clientPort with
    | none => rw [hcp] at h; simp at h
    | some cp =>
      rw [hcp] at h
      cases hr : ringEvict now selfId rest with
      | none => rw [hr] at h; simp at h
      | some r =>
        rw [hr] at h
        simp only [Option.some.injEq] at h
        subst h
        by_cases hsel : p.1 = selfId
        · rw [if_neg (fun hc => hc.2 hsel)]
          simp [dictGet?, hsel]
        · by_cases hcond : now - cp > 10 ∧ p.1 ≠ selfId
          · rw [if_pos hcond, ih r hr]
            simp [dictGet?, hsel]
          · rw [if_neg hcond]
            simp [dictGet?, hsel, ih r hr]

/-- Claim C1 (code bug): the staleness sweep is meant to evict exactly the peers with
`now - last_seen > 10` (and never self), but the code compares `now - v[2]` — the
client_port field — instead of `now - v[3]`.  Here peer 2 has `last_seen = now = 1000`
(fresh by the claim), yet the tick evicts it because `1000 - 50 > 10`. -/
theorem ring_maintainer_eviction_bug :
    dictGet? stC1.known 2 = some ⟨"10.0.0.2", some 40, some 50, 1000⟩
    ∧ ((1000 : Int) - 1000 ≤ 10)
    ∧ ringMaintainerTick stC1 1000
        = some ({ stC1 with known := [(1, ⟨"127.0.0.1", some 20, some 30, 995⟩)] }, []) := by
  refine ⟨by decide, by decide, by decide⟩

/-- Claim C6 counterexample: a HELLO-shaped datagram with a non-numeric id, and a known
ring command with a non-integer argument, both make the handler raise (`none` — the
uncaught `ValueError` kills the discovery listener, resp. closes the ring connection),
rather than being ignored with the state unchanged. -/
theorem malformed_input_raises :
    handleDatagram st0 0 ("HELLO x 10.0.0.2 7 8") = none
    ∧ handleRingLine st0 0 ("ELECTION x") = none := by
  refine ⟨by decide, by decide⟩

/-- Claim C6 (amended): a datagram failing the HELLO shape guard is dropped silently
with the state unchanged; a non-blank ring line with an unknown command keyword is
ignored with the state unchanged and the connection alive; and an ignored line does
not disturb the processing of the following lines on the same connection. -/
theorem malformed_input_ignored :
    (∀ st now data, helloShaped data = false → handleDatagram st now data = some st)
    ∧ (∀ st now line cmd args, pySplit (pyStrip line) = cmd :: args →
        cmd ≠ "ELECTION" → cmd ≠ "LEADER" → cmd ≠ "HEARTBEAT" →
        handleRingLine st now line = some (st, []))
    ∧ (∀ st now l ls, handleRingLine st now l = some (st, []) →
        handleRingLines st now (l :: ls) = handleRingLines st now ls) := by
  refine ⟨fun st now data h => ?_, fun st now line cmd args hsp h1 h2 h3 => ?_,
          fun st now l ls h => ?_⟩
  · simp [handleDatagram, h]
  · by_cases he : (pyStrip line).data.isEmpty
    · simp [handleRingLine, he]
    · simp [handleRingLine, he, hsp, h1, h2, h3]
  · simp only [handleRingLines, h]
    cases hls : handleRingLines st now ls <;> simp

/-- Witness for C6 (amended): a garbage datagram and an unknown ring command at
node 3, and a valid ELECTION still processed after the ignored line. -/
theorem malformed_input_ignored_witness :
    handleDatagram st0 0 ("GOODBYE 1 2 3 4") = some st0
    ∧ handleRingLine st0 0 ("FOO 9") = some (st0, [])
    ∧ handleRingLines st0 0 (("FOO 9") :: ("ELECTION 9") :: [])
        = handleRingLines st0 0 (("ELECTION 9") :: []) := by
  have h := malformed_input_ignored
  refine ⟨h.1 st0 0 _ (by decide),
          h.2.1 st0 0 _ ("FOO") (["9"]) (by decide) (by decide) (by decide) (by decide), ?_⟩
  exact h.2.2 st0 0 _ _
    (h.2.1 st0 0 _ ("FOO") (["9"]) (by decide) (by decide) (by decide) (by decide))

/-- Claim C7: while the node is leader, each non-empty client line `m` is broadcast to
every connected client (sender included) as exactly `"[<leader_id>] <m>\n"`, and an
empty line produces no broadcast. -/
theorem leader_broadcast (st : NodeState) (line : String) (lid : Int)
    (hld : st.leaderId = some st.id) (hl : st.leaderId = some lid) :
    (rstripNl line ≠ "" →
      handleClientLine st line
        = st.clients.map
            (fun c => (c, ("[") ++ toString lid ++ ("] ") ++ rstripNl line ++ ("\n"))))
    ∧ (rstripNl line = "" → handleClientLine st line = []) := by
  have hid : st.id = lid := by rw [hld] at hl; exact Option.some.inj hl
  constructor
  · intro h
    simp [handleClientLine, broadcastToClients, h, hid]
  · intro h
    simp [handleClientLine, h]

/-- Witness for C7: leader 3 with clients 10 and 20 broadcasts `hi` to both, and an
empty line is not broadcast. -/
theorem leader_broadcast_witness :
    handleClientLine { st0 with leaderId := some 3, clients := [10, 20] } ("hi\x0a")
      = [(10, ("[3] hi\x0a")), (20, ("[3] hi\x0a"))]
    ∧ handleClientLine { st0 with leaderId := some 3, clients := [10, 20] } ("\x0a") = [] := by
  have h1 := leader_broadcast { st0 with leaderId := some 3, clients := [10, 20] }
      ("hi\x0a") 3 rfl rfl
  have h2 := leader_broadcast { st0 with leaderId := some 3, clients := [10, 20] }
      ("\x0a") 3 rfl rfl
  exact ⟨(h1.1 (by decide)).trans (by decide), h2.2 (by decide)⟩

/-- Claim C10: receiving `HEARTBEAT <lid>` from another node keeps the client set
intact while `leader_id` now names that node, and a retained client's message is then
still broadcast tagged with the handling node's own id — not the current leader id. -/
theorem stale_leader_keeps_broadcasting (st : NodeState) (now lid : Int) (line : String)
    (hne : lid ≠ st.id) (hmsg : rstripNl line ≠ "") :
    ((onHeartbeat st now lid).1.clients = st.clients)
    ∧ ((onHeartbeat st now lid).1.leaderId = some lid)
    ∧ ((onHeartbeat st now lid).1.leaderId ≠ some (onHeartbeat st now lid).1.id)
    ∧ (handleClientLine (onHeartbeat st now lid).1 line
        = st.clients.map
            (fun c => (c, ("[") ++ toString st.id ++ ("] ") ++ rstripNl line ++ ("\n")))) := by
  refine ⟨rfl, rfl, ?_, ?_⟩
  · simp [onHeartbeat, hne]
  · simp [handleClientLine, broadcastToClients, onHeartbeat, hmsg]

/-- Witness for C10: node 3, a former leader keeping client 10, receives
`HEARTBEAT 9` and still tags the client's message with 3. -/
theorem stale_leader_keeps_broadcasting_witness :
    ((onHeartbeat { st0 with leaderId := some 3, clients := [10] } 50 9).1.clients = [10])
    ∧ ((onHeartbeat { st0 with leaderId := some 3, clients := [10] } 50 9).1.leaderId = some 9)
    ∧ (handleClientLine (onHeartbeat { st0 with leaderId := some 3, clients := [10] } 50 9).1
        ("yo\x0a") = [(10, ("[3] yo\x0a"))]) := by
  have h := stale_leader_keeps_broadcasting { st0 with leaderId := some 3, clients := [10] }
      50 9 ("yo\x0a") (by decide) (by decide)
  exact ⟨h.1, h.2.1, h.2.2.2.trans (by decide)⟩

/-- Claim C9: each peer-table mutation — HELLO ingestion (where any HELLO claiming the
node's own id carries the node's bound ports, as the node's own discovery sender
guarantees), the staleness sweep, and port registration — preserves (resp. for
registration, establishes) the invariant that the table holds self with the bound ports. -/
theorem peerTable_self_invariant (st : NodeState)
    (now now2 now3 nid ringp clientp rp cp : Int) (host : String) (m2 : Known)
    (hreg : selfRegistered st = true)
    (hown : nid = st.id → (some ringp = st.ringPort ∧ some clientp = st.clientPort)) :
    selfRegistered (ingestHello st now nid host ringp clientp) = true
    ∧ (ringEvict now2 st.id st.known = some m2 → selfRegistered { st with known := m2 } = true)
    ∧ selfRegistered (startTcpServers st rp cp now3) = true := by
  refine ⟨?_, fun hev => ?_, ?_⟩
  · by_cases h : nid = st.id
    · obtain ⟨h1, h2⟩ := hown h
      subst h
      simp [selfRegistered, ingestHello, dictGet_dictSet_self, ← h1, ← h2]
    · have hne : st.id ≠ nid := fun he => h he.symm
      have e := dictGet_dictSet_ne st.known nid st.id
        ⟨host, some ringp, some clientp, now⟩ hne
      unfold selfRegistered ingestHello
      unfold selfRegistered at hreg
      simpa [e] using hreg
  · have e := ringEvict_dictGet_self now2 st.id st.known m2 hev
    unfold selfRegistered
    unfold selfRegistered at hreg
    simpa [e] using hreg
  · simp [selfRegistered, startTcpServers, dictGet_dictSet_self]

/-- Witness for C9: node 3 ingests a HELLO from node 7, survives a sweep at time 100,
and re-registers its ports. -/
theorem peerTable_self_invariant_witness :
    selfRegistered (ingestHello st0 50 7 ("10.0.0.9") 21 22) = true
    ∧ selfRegistered { st0 with known := [(3, ⟨"127.0.0.1", some 11, some 12, 0⟩)] } = true
    ∧ selfRegistered (startTcpServers st0 31 32 60) = true := by
  have h := peerTable_self_invariant st0 50 100 60 7 21 22 31 32 ("10.0.0.9")
      ([(3, ⟨"127.0.0.1", some 11, some 12, 0⟩)]) (by decide)
      (fun hc => absurd hc (by decide))
  exact ⟨h.1, h.2.1 (by decide), h.2.2⟩

/-- Claim C2: the three LCR cases of `_on_election_msg`, and that a smaller incoming
id never touches the state (in particular never overwrites `leader_id`). -/
theorem election_msg_lcr (st : NodeState) (eid : Int) :
    (eid = st.id →
      onElectionMsg st eid
        = ({ st with leaderId := some st.id, inElection := false }, [RingMsg.leader st.id]))
    ∧ (st.id < eid → onElectionMsg st eid = (st, [RingMsg.election eid]))
    ∧ (eid < st.id → onElectionMsg st eid = (st, [RingMsg.election st.id]))
    ∧ (eid < st.id → (onElectionMsg st eid).1.leaderId = st.leaderId) := by
  refine ⟨fun h => ?_, fun h => ?_, fun h => ?_, fun h => ?_⟩
  · simp [onElectionMsg, h]
  · rw [onElectionMsg, if_neg (by omega), if_pos (by omega)]
  · rw [onElectionMsg, if_neg (by omega), if_neg (by omega)]
  · rw [onElectionMsg, if_neg (by omega), if_neg (by omega)]

/-- Witness for C2: all three cases at node 3 (eid 3, 7 and 2). -/
theorem election_msg_lcr_witness :
    onElectionMsg st0 3
      = ({ st0 with leaderId := some 3, inElection := false }, [RingMsg.leader 3])
    ∧ onElectionMsg st0 7 = (st0, [RingMsg.election 7])
    ∧ onElectionMsg st0 2 = (st0, [RingMsg.election 3]) :=
  ⟨(election_msg_lcr st0 3).1 rfl,
   (election_msg_lcr st0 7).2.1 (by decide),
   (election_msg_lcr st0 2).2.2.1 (by decide)⟩

/-- Claim C3: `_on_leader_msg` sets `leader_id`, clears `in_election`, stamps
`last_heartbeat`, and forwards iff the announced id is not its own; `_on_heartbeat`
sets `leader_id`, stamps `last_heartbeat`, and forwards iff the id is not its own. -/
theorem leader_and_heartbeat_msgs (st : NodeState) (now : Int) (lid : Int) :
    ((onLeaderMsg st now lid).1
      = { st with leaderId := some lid, inElection := false, lastHeartbeat := now })
    ∧ ((onLeaderMsg st now lid).2 = [RingMsg.leader lid] ↔ lid ≠ st.id)
    ∧ (lid = st.id → (onLeaderMsg st now lid).2 = [])
    ∧ ((onHeartbeat st now lid).1 = { st with leaderId := some lid, lastHeartbeat := now })
    ∧ ((onHeartbeat st now lid).2 = [RingMsg.heartbeat lid] ↔ lid ≠ st.id)
    ∧ (lid = st.id → (onHeartbeat st now lid).2 = []) := by
  by_cases h : lid = st.id <;>
    simp [onLeaderMsg, onHeartbeat, h]

/-- Witness for C3: leader/heartbeat receipt at node 3, for ids 3 (own) and 9 (other). -/
theorem leader_and_heartbeat_msgs_witness :
    (onLeaderMsg st0 5 3).2 = []
    ∧ (onHeartbeat st0 5 3).2 = []
    ∧ (onLeaderMsg st0 5 9).2 = [RingMsg.leader 9]
    ∧ (onHeartbeat st0 5 9).1 = { st0 with leaderId := some 9, lastHeartbeat := 5 } :=
  ⟨(leader_and_heartbeat_msgs st0 5 3).2.2.1 rfl,
   (leader_and_heartbeat_msgs st0 5 3).2.2.2.2.2 rfl,
   (leader_and_heartbeat_msgs st0 5 9).2.1.mpr (by decide),
   (leader_and_heartbeat_msgs st0 5 9).2.2.2.1⟩

/-- Claim C8: receiving a heartbeat touches only `leader_id` and `last_heartbeat`
(the peer table, neighbors, election flags and the client set are untouched), and
re-receiving the same heartbeat at the same time is idempotent on the state. -/
theorem heartbeat_frame_idempotent (st : NodeState) (now : Int) (lid : Int) :
    ((onHeartbeat st now lid).1.id = st.id)
    ∧ ((onHeartbeat st now lid).1.known = st.known)
    ∧ ((onHeartbeat st now lid).1.neighbor = st.neighbor)
    ∧ ((onHeartbeat st now lid).1.left = st.left)
    ∧ ((onHeartbeat st now lid).1.inElection = st.inElection)
    ∧ ((onHeartbeat st now lid).1.lastElectionStart = st.lastElectionStart)
    ∧ ((onHeartbeat st now lid).1.clients = st.clients)
    ∧ ((onHeartbeat st now lid).1.ringPort = st.ringPort)
    ∧ ((onHeartbeat st now lid).1.clientPort = st.clientPort)
    ∧ ((onHeartbeat st now lid).1.leaderId = some lid)
    ∧ ((onHeartbeat st now lid).1.lastHeartbeat = now)
    ∧ ((onHeartbeat (onHeartbeat st now lid).1 now lid).1 = (onHeartbeat st now lid).1) :=
  ⟨rfl, rfl, rfl, rfl, rfl, rfl, rfl, rfl, rfl, rfl, rfl, rfl⟩

/-- Claim C5: a connection accepted while `leader_id != self.id` is sent exactly
`NOT_LEADER\n`, is not admitted, and the whole node state is unchanged. -/
theorem nonleader_client_rejected (st : NodeState) (conn : Int)
    (h : st.leaderId ≠ some st.id) :
    clientAccept st conn = (st, [("NOT_LEADER\n")], false) := by
  simp [clientAccept, h]

/-- Witness for C5: node 3 with no known leader rejects connection 42. -/
theorem nonleader_client_rejected_witness :
    clientAccept st0 42 = (st0, [("NOT_LEADER\n")], false) :=
  nonleader_client_rejected st0 42 (by decide)

theorem getD_eq_get (l : List Int) (k : Nat) (d : Int) (hk : k < l.length) :
    l.getD k d = l.get ⟨k, hk⟩ := by
  induction l generalizing k with
  | nil => simp at hk
  | cons a as ih =>
    cases k with
    | zero => rfl
    | succ k2 => exact ih k2 (by simpa using hk)

theorem leftIdx_lt (i n : Nat) (hn : 0 < n) : leftIdx i n < n := by
  have h0 : (0:Int) < (n:Int) := by exact_mod_cast hn
  have h1 : 0 ≤ ((i:Int) - 1) % (n:Int) := Int.emod_nonneg _ (by omega)
  have h2 : ((i:Int) - 1) % (n:Int) < (n:Int) := Int.emod_lt_of_pos _ h0
  unfold leftIdx
  omega

theorem leftIdx_eq (i n : Nat) (h : i < n) :
    leftIdx i n = if i = 0 then n - 1 else i - 1 := by
  unfold leftIdx
  by_cases h0 : i = 0
  · subst h0
    rw [if_pos rfl]
    have h2 : ((0:Nat):Int) - 1 = -1 := by norm_num
    rw [h2]
    have h3 : (-1 : Int) = ((n:Int) - 1) + (n:Int) * (-1) := by ring
    have h4 : (0:Int) ≤ (n:Int) - 1 := by omega
    have h5 : (n:Int) - 1 < (n:Int) := by omega
    rw [h3, Int.add_mul_emod_self_left, Int.emod_eq_of_lt h4 h5]
    omega
  · rw [if_neg h0]
    have h1 : (0:Int) ≤ (i:Int) - 1 := by omega
    have h2 : (i:Int) - 1 < (n:Int) := by omega
    rw [Int.emod_eq_of_lt h1 h2]
    omega

theorem pyIndex_lt (x : Int) (l : List Int) (h : x ∈ l) : pyIndex x l < l.length := by
  induction l with
  | nil => simp at h
  | cons y ys ih =>
    by_cases hy : y = x
    · simp [pyIndex, hy]
    · have hx : x ∈ ys := by
        rcases List.mem_cons.mp h with h1 | h1
        · exact absurd h1.symm hy
        · exact h1
      have h2 := ih hx
      simp only [pyIndex, if_neg hy, List.length_cons]
      omega

theorem pyIndex_get (x : Int) : ∀ (l : List Int), x ∈ l →
    ∀ (h : pyIndex x l < l.length), l.get ⟨pyIndex x l, h⟩ = x := by
  intro l
  induction l with
  | nil => intro hm; simp at hm
  | cons y ys ih =>
    intro hm h
    by_cases hy : y = x
    · simp [pyIndex, hy]
    · have hx : x ∈ ys := by
        rcases List.mem_cons.mp hm with h1 | h1
        · exact absurd h1.symm hy
        · exact h1
      have h2 : pyIndex x ys < ys.length := pyIndex_lt x ys hx
      simp only [pyIndex, if_neg hy, List.get_cons_succ]
      exact ih hx h2

theorem sorted_succ_spec (selfId : Int) (ids : List Int)
    (hs : List.Sorted (fun a b => a < b) ids) (hmem : selfId ∈ ids) :
    ∃ l r, computeNeighborIds selfId ids = some (l, r) ∧ l ∈ ids ∧ r ∈ ids
      ∧ (∀ y ∈ ids, selfId < y → selfId < r ∧ r ≤ y)
      ∧ ((∀ y ∈ ids, y ≤ selfId) → ∀ y ∈ ids, r ≤ y)
      ∧ (∀ y ∈ ids, y < selfId → l < selfId ∧ y ≤ l)
      ∧ ((∀ y ∈ ids, selfId ≤ y) → ∀ y ∈ ids, y ≤ l) := by
  have hn : 0 < ids.length := List.length_pos.mpr (List.ne_nil_of_mem hmem)
  have hi : pyIndex selfId ids < ids.length := pyIndex_lt selfId ids hmem
  have hself : ids.get ⟨pyIndex selfId ids, hi⟩ = selfId := pyIndex_get selfId ids hmem hi
  have hmono : StrictMono ids.get := List.Sorted.get_strictMono hs
  have hLlt : leftIdx (pyIndex selfId ids) ids.length < ids.length := leftIdx_lt _ _ hn
  have hRlt : (pyIndex selfId ids + 1) % ids.length < ids.length := Nat.mod_lt _ hn
  have heq : computeNeighborIds selfId ids
      = some (ids.get ⟨leftIdx (pyIndex selfId ids) ids.length, hLlt⟩,
              ids.get ⟨(pyIndex selfId ids + 1) % ids.length, hRlt⟩) := by
    unfold computeNeighborIds
    rw [if_pos hmem,
        getD_eq_get ids (leftIdx (pyIndex selfId ids) ids.length) 0 hLlt,
        getD_eq_get ids ((pyIndex selfId ids + 1) % ids.length) 0 hRlt]
  refine ⟨_, _, heq, List.get_mem _ _ _, List.get_mem _ _ _, ?_, ?_, ?_, ?_⟩
  · intro y hy hlt
    obtain ⟨j, hj⟩ := List.mem_iff_get.mp hy
    by_cases hcase : pyIndex selfId ids + 1 < ids.length
    · have hmod : (pyIndex selfId ids + 1) % ids.length = pyIndex selfId ids + 1 :=
        Nat.mod_eq_of_lt hcase
      have hij : (⟨pyIndex selfId ids, hi⟩ : Fin ids.length) < j := by
        rw [← hmono.lt_iff_lt, hself, hj]
        exact hlt
      have hjv : pyIndex selfId ids < j.1 := hij
      have hstep : selfId < ids.get ⟨(pyIndex selfId ids + 1) % ids.length, hRlt⟩ := by
        have hx := hmono (a := (⟨pyIndex selfId ids, hi⟩ : Fin ids.length))
          (b := ⟨(pyIndex selfId ids + 1) % ids.length, hRlt⟩)
          (by show pyIndex selfId ids < (pyIndex selfId ids + 1) % ids.length
              rw [hmod]; omega)
        rw [hself] at hx
        exact hx
      refine ⟨hstep, ?_⟩
      rw [← hj]
      refine hmono.monotone ?_
      show (pyIndex selfId ids + 1) % ids.length ≤ j.1
      rw [hmod]
      omega
    · exfalso
      have hji : j ≤ (⟨pyIndex selfId ids, hi⟩ : Fin ids.length) := by
        show j.1 ≤ pyIndex selfId ids
        have := j.2
        omega
      have hmle := hmono.monotone hji
      rw [hself, hj] at hmle
      omega
  · intro hmax y hy
    obtain ⟨j, hj⟩ := List.mem_iff_get.mp hy
    by_cases hcase : pyIndex selfId ids + 1 < ids.length
    · exfalso
      have hmod : (pyIndex selfId ids + 1) % ids.length = pyIndex selfId ids + 1 :=
        Nat.mod_eq_of_lt hcase
      have hstep : selfId < ids.get ⟨(pyIndex selfId ids + 1) % ids.length, hRlt⟩ := by
        have hx := hmono (a := (⟨pyIndex selfId ids, hi⟩ : Fin ids.length))
          (b := ⟨(pyIndex selfId ids + 1) % ids.length, hRlt⟩)
          (by show pyIndex selfId ids < (pyIndex selfId ids + 1) % ids.length
              rw [hmod]; omega)
        rw [hself] at hx
        exact hx
      have hle := hmax _ (List.get_mem ids ((pyIndex selfId ids + 1) % ids.length) hRlt)
      omega
    · have hin : pyIndex selfId ids + 1 = ids.length := by omega
      have hmod : (pyIndex selfId ids + 1) % ids.length = 0 := by
        rw [hin, Nat.mod_self]
      rw [← hj]
      refine hmono.monotone ?_
      show (pyIndex selfId ids + 1) % ids.length ≤ j.1
      rw [hmod]
      omega
  · intro y hy hlt
    obtain ⟨j, hj⟩ := List.mem_iff_get.mp hy
    by_cases h0 : pyIndex selfId ids = 0
    · exfalso
      have h0j : (⟨pyIndex selfId ids, hi⟩ : Fin ids.length) ≤ j := by
        show pyIndex selfId ids ≤ j.1
        omega
      have hmle := hmono.monotone h0j
      rw [hself, hj] at hmle
      omega
    · have hl : leftIdx (pyIndex selfId ids) ids.length = pyIndex selfId ids - 1 := by
        rw [leftIdx_eq _ _ hi, if_neg h0]
      have hlstep : ids.get ⟨leftIdx (pyIndex selfId ids) ids.length, hLlt⟩ < selfId := by
        have hx := hmono (a := (⟨leftIdx (pyIndex selfId ids) ids.length, hLlt⟩ : Fin ids.length))
          (b := ⟨pyIndex selfId ids, hi⟩)
          (by show leftIdx (pyIndex selfId ids) ids.length < pyIndex selfId ids
              rw [hl]; omega)
        rw [hself] at hx
        exact hx
      have hji : j < (⟨pyIndex selfId ids, hi⟩ : Fin ids.length) := by
        rw [← hmono.lt_iff_lt, hself, hj]
        exact hlt
      have hjv : j.1 < pyIndex selfId ids := hji
      refine ⟨hlstep, ?_⟩
      rw [← hj]
      refine hmono.monotone ?_
      show j.1 ≤ leftIdx (pyIndex selfId ids) ids.length
      rw [hl]
      omega
  · intro hmin y hy
    obtain ⟨j, hj⟩ := List.mem_iff_get.mp hy
    by_cases h0 : pyIndex selfId ids = 0
    · have hl : leftIdx (pyIndex selfId ids) ids.length = ids.length - 1 := by
        rw [leftIdx_eq _ _ hi, if_pos h0]
      rw [← hj]
      refine hmono.monotone ?_
      show j.1 ≤ leftIdx (pyIndex selfId ids) ids.length
      rw [hl]
      have := j.2
      omega
    · exfalso
      have hl : leftIdx (pyIndex selfId ids) ids.length = pyIndex selfId ids - 1 := by
        rw [leftIdx_eq _ _ hi, if_neg h0]
      have hlstep : ids.get ⟨leftIdx (pyIndex selfId ids) ids.length, hLlt⟩ < selfId := by
        have hx := hmono (a := (⟨leftIdx (pyIndex selfId ids) ids.length, hLlt⟩ : Fin ids.length))
          (b := ⟨pyIndex selfId ids, hi⟩)
          (by show leftIdx (pyIndex selfId ids) ids.length < pyIndex selfId ids
              rw [hl]; omega)
        rw [hself] at hx
        exact hx
      have hge := hmin _ (List.get_mem ids (leftIdx (pyIndex selfId ids) ids.length) hLlt)
      omega

/-- Claim C4 (amended): for any peer-table snapshot whose keys are distinct and contain
self, the computed right neighbor id is the least id strictly greater than self
(wrapping to the least id overall when self is the maximum), and the left neighbor id
is the greatest id strictly smaller (wrapping to the greatest overall); when the only
known id is self, both neighbor ids are self itself — they are not undefined. -/
theorem ringNeighbors_lcr_order (selfId : Int) (m : Known)
    (hnd : (m.map Prod.fst).Nodup) (hmem : selfId ∈ m.map Prod.fst) :
    ∃ l r, computeNeighborIds selfId (sortedIds m) = some (l, r)
      ∧ l ∈ m.map Prod.fst ∧ r ∈ m.map Prod.fst
      ∧ (∀ y ∈ m.map Prod.fst, selfId < y → selfId < r ∧ r ≤ y)
      ∧ ((∀ y ∈ m.map Prod.fst, y ≤ selfId) → ∀ y ∈ m.map Prod.fst, r ≤ y)
      ∧ (∀ y ∈ m.map Prod.fst, y < selfId → l < selfId ∧ y ≤ l)
      ∧ ((∀ y ∈ m.map Prod.fst, selfId ≤ y) → ∀ y ∈ m.map Prod.fst, y ≤ l)
      ∧ (m.map Prod.fst = [selfId] → l = selfId ∧ r = selfId) := by
  have hperm : (sortedIds m).Perm (m.map Prod.fst) := by
    unfold sortedIds
    exact List.perm_insertionSort _ _
  have hsle : List.Sorted (fun a b => a ≤ b) (sortedIds m) := by
    unfold sortedIds
    exact List.sorted_insertionSort _ _
  have hnd2 : (sortedIds m).Nodup := hperm.nodup_iff.mpr hnd
  have hs : List.Sorted (fun a b => a < b) (sortedIds m) := List.Sorted.lt_of_le hsle hnd2
  obtain ⟨l, r, heq, hlm, hrm, hr1, hr2, hl1, hl2⟩ :=
    sorted_succ_spec selfId (sortedIds m) hs (hperm.mem_iff.mpr hmem)
  refine ⟨l, r, heq, hperm.mem_iff.mp hlm, hperm.mem_iff.mp hrm, ?_, ?_, ?_, ?_, ?_⟩
  · intro y hy hlt
    exact hr1 y (hperm.mem_iff.mpr hy) hlt
  · intro hmax y hy
    exact hr2 (fun z hz => hmax z (hperm.mem_iff.mp hz)) y (hperm.mem_iff.mpr hy)
  · intro y hy hlt
    exact hl1 y (hperm.mem_iff.mpr hy) hlt
  · intro hmin y hy
    exact hl2 (fun z hz => hmin z (hperm.mem_iff.mp hz)) y (hperm.mem_iff.mpr hy)
  · intro hsing
    have hl3 := hperm.mem_iff.mp hlm
    have hr3 := hperm.mem_iff.mp hrm
    rw [hsing] at hl3 hr3
    exact ⟨List.mem_singleton.mp hl3, List.mem_singleton.mp hr3⟩

/-- Witness for C4 (amended): the table with ids 9, 1, 5 seen from node 5, and the
singleton table of node 3 where both neighbor ids come out as 3. -/
theorem ringNeighbors_lcr_order_witness :
    (∃ l r, computeNeighborIds 5 (sortedIds
        ([(9, ⟨"c", some 3, some 4, 0⟩), (1, ⟨"a", some 1, some 2, 0⟩),
          (5, ⟨"b", some 2, some 3, 0⟩)])) = some (l, r))
    ∧ (∃ l r, computeNeighborIds 3 (sortedIds ([(3, ⟨"s", some 7, some 8, 0⟩)]))
        = some (l, r) ∧ l = 3 ∧ r = 3) := by
  constructor
  · obtain ⟨l, r, heq, -⟩ := ringNeighbors_lcr_order 5
      ([(9, ⟨"c", some 3, some 4, 0⟩), (1, ⟨"a", some 1, some 2, 0⟩),
        (5, ⟨"b", some 2, some 3, 0⟩)]) (by decide) (by decide)
    exact ⟨l, r, heq⟩
  · obtain ⟨l, r, heq, h2, h3, h4, h5, h6, h7, h8⟩ :=
      ringNeighbors_lcr_order 3 ([(3, ⟨"s", some 7, some 8, 0⟩)]) (by decide) (by decide)
    obtain ⟨he1, he2⟩ := h8 (by decide)
    exact ⟨l, r, heq, he1, he2⟩

/-- Claim C4 counterexample: with self the only known peer (node 5, ring port
registered after startup), the code computes both `left` and `right` as self — the
neighbor records are defined, not undefined as the claim states. -/
theorem singleton_neighbor_is_self :
    ringNeighbors 5 ([(5, ⟨"127.0.0.1", some 70, some 71, 0⟩)])
      = some (some (5, ("127.0.0.1"), 70), some (5, ("127.0.0.1"), 70)) := by
  decide

end DistNode
